import Mathlib

/-!
Shallow embedding of the snake game engine from src/snake_game/snake.rs.

Coordinates are u16 in the source; they are modelled as Nat here. All
coordinate values stay far below 2 to the 16 (see the no-overflow theorem
for claim C10), so Nat addition agrees with u16 addition, and Nat
subtraction (which is truncated at zero) agrees with u16 saturating_sub.

The VecDeque of the source is modelled as a List with the front of the
deque at the head of the list: push_front is List.cons, pop_back is
List.dropLast, front is List.head.

Randomness (rand thread_rng with gen_range) is modelled by passing an
explicit list of raw generator outputs: gen_range lo hi r maps a raw
output r into the half-open range lo..hi, which is the documented
contract of rand gen_range on the range lo..hi. The retry loop of
generate_food consumes one raw pair per iteration and returns none when
the supplied list is exhausted, modelling the (possibly diverging) loop.
The Rust update returns none exactly when it would panic (empty deque)
or when the food loop ran out of supplied randomness.
-/

set_option autoImplicit false

/-- Board width, the constant WIDTH = 20 of the source. -/
def WIDTH : Nat := 20

/-- Board height, the constant HEIGHT = 10 of the source. -/
def HEIGHT : Nat := 10

/-- The Direction enum of the source. -/
inductive Direction : Type where
  | Up : Direction
  | Down : Direction
  | Left : Direction
  | Right : Direction
deriving DecidableEq, Repr

/-- The Position struct of the source: a pair of coordinates. -/
structure Position : Type where
  x : Nat
  y : Nat
deriving DecidableEq, Repr

/-- The Game struct of the source: snake body (front of the VecDeque first),
current direction, food cell and the game_over flag. -/
structure Game : Type where
  snake : List Position
  direction : Direction
  food : Position
  game_over : Bool
deriving DecidableEq, Repr

/-- Contract of rand gen_range on the half-open range lo..hi: the raw
generator output r is mapped into the interval from lo inclusive to hi
exclusive. -/
def gen_range (lo hi r : Nat) : Nat := lo + r % (hi - lo)

/-- Game::generate_food of the source: repeatedly sample a position with
x in gen_range over 1..WIDTH-1 and y in gen_range over 1..HEIGHT-1 and
retry while the candidate lies on the snake. One raw pair of generator
outputs is consumed per loop iteration; none models running out of the
supplied randomness (the loop of the source would keep spinning). -/
def Game.generate_food (snake : List Position) : List (Nat × Nat) → Option Position
  | [] => none
  | r :: rs =>
    let pos : Position := { x := gen_range 1 (WIDTH - 1) r.1, y := gen_range 1 (HEIGHT - 1) r.2 }
    if pos ∈ snake then Game.generate_food snake rs else some pos

/-- The new-head computation inside Game::update: step one cell in the
current direction; Nat subtraction models u16 saturating_sub. -/
def Game.new_head (head : Position) : Direction → Position
  | Direction.Up => { x := head.x, y := head.y - 1 }
  | Direction.Down => { x := head.x, y := head.y + 1 }
  | Direction.Left => { x := head.x - 1, y := head.y }
  | Direction.Right => { x := head.x + 1, y := head.y }

/-- The collision condition of Game::update, in the order the source
checks it: new_head.x == 0, new_head.y == 0, new_head.x >= WIDTH,
new_head.y >= HEIGHT, or new_head already on the snake. -/
def Game.collision (g : Game) (nh : Position) : Prop :=
  nh.x = 0 ∨ nh.y = 0 ∨ WIDTH ≤ nh.x ∨ HEIGHT ≤ nh.y ∨ nh ∈ g.snake

instance (g : Game) (nh : Position) : Decidable (Game.collision g nh) := by
  unfold Game.collision
  infer_instance

/-- Game::update of the source. Note that it does NOT consult game_over:
the source function has no early return for a finished game. The result
is none when the source would panic on an empty deque
(self.snake.front().unwrap()) or when generate_food ran out of supplied
randomness. -/
def Game.update (g : Game) (rng : List (Nat × Nat)) : Option Game :=
  match g.snake with
  | [] => none
  | head :: _ =>
    let nh := Game.new_head head g.direction
    if Game.collision g nh then
      some { g with game_over := true }
    else
      let snake' := nh :: g.snake
      if nh = g.food then
        (Game.generate_food snake' rng).map fun f => { g with snake := snake', food := f }
      else
        some { g with snake := snake'.dropLast }

/-- Game::change_direction of the source: the four 180-degree pairs are
ignored, every other request overwrites the direction. -/
def Game.change_direction (g : Game) (new_direction : Direction) : Game :=
  match g.direction, new_direction with
  | Direction.Up, Direction.Down => g
  | Direction.Down, Direction.Up => g
  | Direction.Left, Direction.Right => g
  | Direction.Right, Direction.Left => g
  | _, _ => { g with direction := new_direction }

/-- Game::new of the source: a single segment at (5,5), direction Right,
food generated by generate_food, game_over cleared. -/
def Game.new (rng : List (Nat × Nat)) : Option Game :=
  let snake : List Position := [{ x := 5, y := 5 }]
  (Game.generate_food snake rng).map fun food =>
    { snake := snake, direction := Direction.Right, food := food, game_over := false }

/-- The guarded tick of the driver loop in main: update is invoked only
while game_over is false. -/
def Game.driver_tick (g : Game) (rng : List (Nat × Nat)) : Option Game :=
  if g.game_over then some g else Game.update g rng

/-- The opposite-direction table, exactly the four pairs suppressed by
Game::change_direction. -/
def Direction.is_opposite : Direction → Direction → Bool
  | Direction.Up, Direction.Down => true
  | Direction.Down, Direction.Up => true
  | Direction.Left, Direction.Right => true
  | Direction.Right, Direction.Left => true
  | _, _ => false

/-- The interior region of the spec: the rectangle from (1,1) inclusive
to (WIDTH-1, HEIGHT-1) exclusive. This is also exactly the sample space
of generate_food. -/
def InInterior (p : Position) : Prop :=
  1 ≤ p.x ∧ p.x < WIDTH - 1 ∧ 1 ≤ p.y ∧ p.y < HEIGHT - 1

instance (p : Position) : Decidable (InInterior p) := by
  unfold InInterior
  infer_instance

/-- States reachable from a fresh game by any sequence of ticks (with any
randomness) and direction changes. -/
inductive Reachable : Game → Prop where
  | init : ∀ (rng : List (Nat × Nat)) (g : Game), Game.new rng = some g → Reachable g
  | tick : ∀ (g g' : Game) (rng : List (Nat × Nat)),
      Reachable g → Game.update g rng = some g' → Reachable g'
  | dir : ∀ (g : Game) (d : Direction), Reachable g → Reachable (Game.change_direction g d)

/-- Iterate Game.update n times with no randomness supplied (enough while
no food is eaten). -/
def Game.stepN : Game → Nat → Option Game
  | g, 0 => some g
  | g, n + 1 =>
    match Game.update g [] with
    | some g' => Game.stepN g' n
    | none => none

theorem gen_range_bounds (lo hi r : Nat) (h : lo < hi) :
    lo ≤ gen_range lo hi r ∧ gen_range lo hi r < hi := by
  have hpos : 0 < hi - lo := by omega
  have := Nat.mod_lt r hpos
  unfold gen_range
  omega

theorem generate_food_sound (snake : List Position) :
    ∀ (rng : List (Nat × Nat)) (p : Position),
      Game.generate_food snake rng = some p → InInterior p ∧ p ∉ snake := by
  intro rng
  induction rng with
  | nil => intro p h; simp [Game.generate_food] at h
  | cons r rs ih =>
    intro p h
    simp only [Game.generate_food] at h
    by_cases hm :
        ({ x := gen_range 1 (WIDTH - 1) r.1, y := gen_range 1 (HEIGHT - 1) r.2 } : Position)
          ∈ snake
    · rw [if_pos hm] at h
      exact ih p h
    · rw [if_neg hm] at h
      have hp : p = { x := gen_range 1 (WIDTH - 1) r.1, y := gen_range 1 (HEIGHT - 1) r.2 } :=
        (Option.some.inj h).symm
      subst hp
      refine ⟨⟨?_, ?_, ?_, ?_⟩, hm⟩
      · exact (gen_range_bounds 1 (WIDTH - 1) r.1 (by decide)).1
      · exact (gen_range_bounds 1 (WIDTH - 1) r.1 (by decide)).2
      · exact (gen_range_bounds 1 (HEIGHT - 1) r.2 (by decide)).1
      · exact (gen_range_bounds 1 (HEIGHT - 1) r.2 (by decide)).2

theorem update_of_collision (g : Game) (head : Position) (rest : List Position)
    (rng : List (Nat × Nat)) (hs : g.snake = head :: rest)
    (hc : Game.collision g (Game.new_head head g.direction)) :
    Game.update g rng = some { g with game_over := true } := by
  rcases g with ⟨s, d, f, o⟩
  obtain rfl : s = head :: rest := hs
  simp only [Game.update]
  rw [if_pos hc]

theorem update_of_eat (g : Game) (head : Position) (rest : List Position)
    (rng : List (Nat × Nat)) (hs : g.snake = head :: rest)
    (hnc : ¬ Game.collision g (Game.new_head head g.direction))
    (hf : Game.new_head head g.direction = g.food) :
    Game.update g rng =
      (Game.generate_food (Game.new_head head g.direction :: g.snake) rng).map
        fun fd => { g with snake := Game.new_head head g.direction :: g.snake, food := fd } := by
  rcases g with ⟨s, d, f, o⟩
  obtain rfl : s = head :: rest := hs
  simp only [Game.update]
  rw [if_neg hnc, if_pos hf]

theorem update_of_move (g : Game) (head : Position) (rest : List Position)
    (rng : List (Nat × Nat)) (hs : g.snake = head :: rest)
    (hnc : ¬ Game.collision g (Game.new_head head g.direction))
    (hf : Game.new_head head g.direction ≠ g.food) :
    Game.update g rng =
      some { g with snake := (Game.new_head head g.direction :: g.snake).dropLast } := by
  rcases g with ⟨s, d, f, o⟩
  obtain rfl : s = head :: rest := hs
  simp only [Game.update]
  rw [if_neg hnc, if_neg hf]

theorem change_direction_frame (g : Game) (d : Direction) :
    (Game.change_direction g d).snake = g.snake ∧
    (Game.change_direction g d).food = g.food ∧
    (Game.change_direction g d).game_over = g.game_over := by
  rcases g with ⟨s, dd, f, o⟩
  cases dd <;> cases d <;> simp [Game.change_direction]

theorem not_collision_not_mem (g : Game) (nh : Position)
    (hnc : ¬ Game.collision g nh) : nh ∉ g.snake := by
  intro hmem
  exact hnc (Or.inr (Or.inr (Or.inr (Or.inr hmem))))

theorem update_nodup (g g' : Game) (rng : List (Nat × Nat))
    (hn : g.snake.Nodup) (h : Game.update g rng = some g') : g'.snake.Nodup := by
  cases hs : g.snake with
  | nil =>
    rcases g with ⟨s, d, f, o⟩
    obtain rfl : s = [] := hs
    simp [Game.update] at h
  | cons head rest =>
    by_cases hnc : Game.collision g (Game.new_head head g.direction)
    · rw [update_of_collision g head rest rng hs hnc] at h
      obtain rfl := Option.some.inj h
      exact hn
    · have hmem : Game.new_head head g.direction ∉ g.snake := not_collision_not_mem g _ hnc
      have hcons : (Game.new_head head g.direction :: g.snake).Nodup :=
        List.nodup_cons.mpr ⟨hmem, hn⟩
      by_cases hf : Game.new_head head g.direction = g.food
      · rw [update_of_eat g head rest rng hs hnc hf] at h
        obtain ⟨fd, hfd, rfl⟩ := Option.map_eq_some'.mp h
        exact hcons
      · rw [update_of_move g head rest rng hs hnc hf] at h
        obtain rfl := Option.some.inj h
        exact (List.dropLast_sublist _).nodup hcons

theorem new_some_shape (rng : List (Nat × Nat)) (g : Game) (h : Game.new rng = some g) :
    g.snake = [⟨5, 5⟩] ∧ g.direction = Direction.Right ∧ g.game_over = false := by
  simp only [Game.new] at h
  obtain ⟨fd, _, rfl⟩ := Option.map_eq_some'.mp h
  exact ⟨rfl, rfl, rfl⟩

theorem reachable_stepN (n : Nat) :
    ∀ (g g' : Game), Reachable g → Game.stepN g n = some g' → Reachable g' := by
  induction n with
  | zero =>
    intro g g' hr h
    obtain rfl := Option.some.inj h
    exact hr
  | succ n ih =>
    intro g g' hr h
    simp only [Game.stepN] at h
    cases hu : Game.update g [] with
    | none => rw [hu] at h; simp at h
    | some g1 =>
      rw [hu] at h
      exact ih g1 g' (Reachable.tick g g1 [] hr hu) h

/-- C1: the claim states that tick sets the terminal flag whenever the
stepped head satisfies new_head.x >= WIDTH - 1 or new_head.y >= HEIGHT - 1.
The source checks new_head.x >= WIDTH and new_head.y >= HEIGHT instead:
stepping onto the border column x = WIDTH - 1 = 19 does not set game_over,
the head simply moves there. This evaluates Game.update at such an input:
from head (18,5) moving Right the new head is (19,5), on the border column,
yet the result keeps game_over = false. -/
theorem c1_border_column_not_terminal :
    (19 : Nat) = WIDTH - 1 ∧
    Game.update ⟨[⟨18, 5⟩], Direction.Right, ⟨1, 1⟩, false⟩ [] =
      some ⟨[⟨19, 5⟩], Direction.Right, ⟨1, 1⟩, false⟩ := by decide

/-- C2: the claim states that in every reachable state all snake segments
lie strictly inside the interior region. The state with the single segment
(19,5) on the border column x = WIDTH - 1 is reachable from a fresh game
(direction Right, food (1,1), fourteen ticks), refuting the claimed
invariant for the code as written. -/
theorem c2_reachable_segment_on_border :
    Reachable ⟨[⟨19, 5⟩], Direction.Right, ⟨1, 1⟩, false⟩ ∧
    ¬ InInterior ⟨19, 5⟩ := by
  refine ⟨?_, by decide⟩
  have h0 : Reachable ⟨[⟨5, 5⟩], Direction.Right, ⟨1, 1⟩, false⟩ :=
    Reachable.init [(0, 0)] _ (by decide)
  exact reachable_stepN 14 _ _ h0 (by decide)

/-- C3 counterexample: Game.update does not consult the game_over flag, so
calling it on a terminal state is not a no-op: from the terminal state with
snake [(5,5)] and direction Right it moves the snake to [(6,5)]. -/
theorem c3_update_mutates_terminal_state :
    Game.update ⟨[⟨5, 5⟩], Direction.Right, ⟨1, 1⟩, true⟩ [] =
      some ⟨[⟨6, 5⟩], Direction.Right, ⟨1, 1⟩, true⟩ ∧
    (⟨[⟨6, 5⟩], Direction.Right, ⟨1, 1⟩, true⟩ : Game) ≠
      ⟨[⟨5, 5⟩], Direction.Right, ⟨1, 1⟩, true⟩ := by decide

/-- C3 amended: the no-op-on-terminal guarantee holds one level up, in the
driver loop, which invokes Game.update only while game_over is false: the
guarded tick of the driver leaves every terminal state unchanged. -/
theorem c3_guarded_tick_noop (g : Game) (rng : List (Nat × Nat))
    (h : g.game_over = true) : Game.driver_tick g rng = some g := by
  simp [Game.driver_tick, h]

/-- Witness for C3: the guarded driver tick at a concrete terminal state. -/
theorem c3_witness :
    (⟨[⟨5, 5⟩], Direction.Right, ⟨1, 1⟩, true⟩ : Game).game_over = true ∧
    Game.driver_tick ⟨[⟨5, 5⟩], Direction.Right, ⟨1, 1⟩, true⟩ [] =
      some ⟨[⟨5, 5⟩], Direction.Right, ⟨1, 1⟩, true⟩ :=
  ⟨rfl, c3_guarded_tick_noop _ [] rfl⟩

/-- C4: whenever the stepped head lands on any cell of the current snake,
including the tail cell that has not yet been removed this step, update
declares a collision and sets game_over, leaving the rest of the state
unchanged. -/
theorem c4_self_collision_terminal (g : Game) (head : Position) (rest : List Position)
    (rng : List (Nat × Nat)) (hs : g.snake = head :: rest) (ht : g.game_over = false)
    (hmem : Game.new_head head g.direction ∈ g.snake) :
    Game.update g rng = some { g with game_over := true } :=
  update_of_collision g head rest rng hs (Or.inr (Or.inr (Or.inr (Or.inr hmem))))

/-- Witness for C4: a length-4 snake whose head moves Down onto its own
tail cell (5,6); update sets game_over. -/
theorem c4_witness :
    Game.new_head ⟨5, 5⟩ Direction.Down ∈ [(⟨5, 5⟩ : Position), ⟨6, 5⟩, ⟨6, 6⟩, ⟨5, 6⟩] ∧
    Game.update ⟨[⟨5, 5⟩, ⟨6, 5⟩, ⟨6, 6⟩, ⟨5, 6⟩], Direction.Down, ⟨1, 1⟩, false⟩ [] =
      some ⟨[⟨5, 5⟩, ⟨6, 5⟩, ⟨6, 6⟩, ⟨5, 6⟩], Direction.Down, ⟨1, 1⟩, true⟩ :=
  ⟨by decide,
    c4_self_collision_terminal _ ⟨5, 5⟩ [⟨6, 5⟩, ⟨6, 6⟩, ⟨5, 6⟩] [] rfl rfl (by decide)⟩

/-- C5: every state reachable from a fresh game by ticks and direction
changes has a duplicate-free snake sequence. -/
theorem c5_reachable_nodup (g : Game) (h : Reachable g) : g.snake.Nodup := by
  induction h with
  | init rng g0 hnew =>
    obtain ⟨hs, _, _⟩ := new_some_shape rng g0 hnew
    rw [hs]
    exact List.nodup_singleton _
  | tick g1 g2 rng _ hstep ih => exact update_nodup g1 g2 rng ih hstep
  | dir g1 d _ ih =>
    rw [(change_direction_frame g1 d).1]
    exact ih

/-- Witness for C5: the fresh game with food (1,1) is reachable and its
snake sequence has no duplicates. -/
theorem c5_witness :
    Reachable ⟨[⟨5, 5⟩], Direction.Right, ⟨1, 1⟩, false⟩ ∧
    ([(⟨5, 5⟩ : Position)]).Nodup := by
  have hr : Reachable ⟨[⟨5, 5⟩], Direction.Right, ⟨1, 1⟩, false⟩ :=
    Reachable.init [(0, 0)] _ (by decide)
  exact ⟨hr, c5_reachable_nodup _ hr⟩

/-- C6: when update detects a collision it sets game_over to true and
changes nothing else: snake, food and direction are exactly as before. -/
theorem c6_collision_terminal_frame (g : Game) (head : Position) (rest : List Position)
    (rng : List (Nat × Nat)) (hs : g.snake = head :: rest) (ht : g.game_over = false)
    (hc : Game.collision g (Game.new_head head g.direction)) :
    Game.update g rng = some { g with game_over := true } ∧
    ({ g with game_over := true } : Game).snake = g.snake ∧
    ({ g with game_over := true } : Game).food = g.food ∧
    ({ g with game_over := true } : Game).direction = g.direction :=
  ⟨update_of_collision g head rest rng hs hc, rfl, rfl, rfl⟩

/-- Witness for C6: head (1,5) moving Left steps to (0,5), a wall cell;
update sets game_over and leaves snake, food and direction unchanged. -/
theorem c6_witness :
    Game.collision ⟨[⟨1, 5⟩], Direction.Left, ⟨3, 3⟩, false⟩
      (Game.new_head ⟨1, 5⟩ Direction.Left) ∧
    Game.update ⟨[⟨1, 5⟩], Direction.Left, ⟨3, 3⟩, false⟩ [] =
      some ⟨[⟨1, 5⟩], Direction.Left, ⟨3, 3⟩, true⟩ :=
  ⟨by decide, (c6_collision_terminal_frame _ ⟨1, 5⟩ [] [] rfl rfl (by decide)).1⟩

/-- C7: on a collision-free step the new head is prepended; if it equals
the food the tail is kept (length grows by one) and the food is
regenerated inside the interior avoiding the new snake; otherwise the
tail is dropped and the length is unchanged. -/
theorem c7_no_collision_step (g : Game) (head : Position) (rest : List Position)
    (rng : List (Nat × Nat)) (hs : g.snake = head :: rest) (ht : g.game_over = false)
    (hnc : ¬ Game.collision g (Game.new_head head g.direction)) :
    (Game.new_head head g.direction = g.food →
      ∀ g', Game.update g rng = some g' →
        g'.snake = Game.new_head head g.direction :: g.snake ∧
        g'.snake.length = g.snake.length + 1 ∧
        InInterior g'.food ∧ g'.food ∉ g'.snake ∧
        g'.direction = g.direction ∧ g'.game_over = false) ∧
    (Game.new_head head g.direction ≠ g.food →
      Game.update g rng =
        some { g with snake := (Game.new_head head g.direction :: g.snake).dropLast } ∧
      ((Game.new_head head g.direction :: g.snake).dropLast).length = g.snake.length) := by
  constructor
  · intro hf g' h
    rw [update_of_eat g head rest rng hs hnc hf] at h
    obtain ⟨fd, hfd, rfl⟩ := Option.map_eq_some'.mp h
    obtain ⟨hint, hnotmem⟩ := generate_food_sound _ rng fd hfd
    exact ⟨rfl, by simp, hint, hnotmem, rfl, ht⟩
  · intro hf
    refine ⟨update_of_move g head rest rng hs hnc hf, ?_⟩
    rw [List.length_dropLast]
    simp

/-- Witness for C7: the growth scenario of the spec: snake [(5,5)], moving
Right, food at (6,5); one tick yields snake [(6,5),(5,5)], game_over
false, and the food relocated to an interior cell off the snake. -/
theorem c7_witness :
    Game.update ⟨[⟨5, 5⟩], Direction.Right, ⟨6, 5⟩, false⟩ [(0, 0)] =
      some ⟨[⟨6, 5⟩, ⟨5, 5⟩], Direction.Right, ⟨1, 1⟩, false⟩ ∧
    InInterior (⟨1, 1⟩ : Position) ∧
    (⟨1, 1⟩ : Position) ∉ [(⟨6, 5⟩ : Position), ⟨5, 5⟩] := by
  have h := (c7_no_collision_step ⟨[⟨5, 5⟩], Direction.Right, ⟨6, 5⟩, false⟩ ⟨5, 5⟩ []
      [(0, 0)] rfl rfl (by decide)).1 (by decide)
      ⟨[⟨6, 5⟩, ⟨5, 5⟩], Direction.Right, ⟨1, 1⟩, false⟩ (by decide)
  exact ⟨by decide, h.2.2.1, h.2.2.2.1⟩

/-- C8: change_direction ignores a request for the exact opposite of the
current direction and otherwise overwrites the direction; in both cases
snake, food and game_over are untouched, and the operation is total. -/
theorem c8_change_direction_spec (g : Game) (nd : Direction) :
    Game.change_direction g nd =
      (if Direction.is_opposite g.direction nd then g else { g with direction := nd }) ∧
    (Game.change_direction g nd).snake = g.snake ∧
    (Game.change_direction g nd).food = g.food ∧
    (Game.change_direction g nd).game_over = g.game_over := by
  refine ⟨?_, (change_direction_frame g nd).1, (change_direction_frame g nd).2.1,
    (change_direction_frame g nd).2.2⟩
  rcases g with ⟨s, d, f, o⟩
  cases d <;> cases nd <;> simp [Game.change_direction, Direction.is_opposite]

/-- C9: whenever generate_food returns a position, that position lies in
the interior region and avoids every snake cell (stated for a snake that
leaves at least one interior cell free, as the claim scopes it). -/
theorem c9_generate_food_interior (snake : List Position) (rng : List (Nat × Nat))
    (p : Position) (hfree : ∃ q, InInterior q ∧ q ∉ snake)
    (h : Game.generate_food snake rng = some p) :
    InInterior p ∧ p ∉ snake :=
  generate_food_sound snake rng p h

/-- Witness for C9: over the snake [(5,5)] the generator returns (1,1),
an interior cell off the snake. -/
theorem c9_witness :
    InInterior (⟨1, 1⟩ : Position) ∧ (⟨1, 1⟩ : Position) ∉ [(⟨5, 5⟩ : Position)] :=
  c9_generate_food_interior [⟨5, 5⟩] [(0, 0)] ⟨1, 1⟩
    ⟨⟨1, 1⟩, by decide, by decide⟩ (by decide)

/-- C10: on any state whose snake is non-empty with all coordinates inside
the grid, tick cannot panic: the front of the deque exists, and the u16
sums head.x + 1 and head.y + 1 stay far below 2 to the 16, so the stepped
head is overflow-free in every direction. -/
theorem c10_no_panic (g : Game) (head : Position) (rest : List Position)
    (hs : g.snake = head :: rest)
    (hbound : ∀ p ∈ g.snake, p.x < WIDTH ∧ p.y < HEIGHT) :
    g.snake.head? = some head ∧
    head.x + 1 < 2 ^ 16 ∧ head.y + 1 < 2 ^ 16 ∧
    (Game.new_head head g.direction).x < 2 ^ 16 ∧
    (Game.new_head head g.direction).y < 2 ^ 16 := by
  have hmem : head ∈ g.snake := by
    rw [hs]
    exact List.mem_cons_self _ _
  obtain ⟨hx, hy⟩ := hbound head hmem
  have hW : WIDTH = 20 := rfl
  have hH : HEIGHT = 10 := rfl
  have h16 : 2 ^ 16 = 65536 := by norm_num
  refine ⟨by rw [hs]; rfl, by omega, by omega, ?_, ?_⟩
  · cases g.direction <;> simp [Game.new_head] <;> omega
  · cases g.direction <;> simp [Game.new_head] <;> omega

/-- Witness for C10: the fresh single-segment snake at (5,5). -/
theorem c10_witness :
    ([(⟨5, 5⟩ : Position)]).head? = some (⟨5, 5⟩ : Position) ∧
    (5 : Nat) + 1 < 2 ^ 16 := by
  have h := c10_no_panic ⟨[⟨5, 5⟩], Direction.Right, ⟨7, 7⟩, false⟩ ⟨5, 5⟩ [] rfl (by decide)
  exact ⟨h.1, h.2.1⟩
